import Mathlib

/-!
Verification of the AEOS ML server core (src/app.py): forecast engine
(`predict_consumption`), anomaly engine (`detect_anomalies`) and statistics
engine (`calculate_statistics`).

Embedding choices:
- Python floats are modelled as exact rationals (`ℚ`); `np.std` and the
  z-scores, which involve a square root, live in `ℝ` via `Real.sqrt`.
- The loaded pickle model is modelled as an optional function
  `List ℚ → Option (List ℚ)`: `none` for a `predict` call that raises,
  `some out` for a successful call returning the flattened list `out`.
- `HTTPException(status_code=400, ...)` is modelled as `Except.error 400`;
  the `timestamp` fields (wall-clock reads) are omitted.
-/

namespace AEOS

/-- Embeds `np.mean(data)`: arithmetic mean (sum divided by length). -/
def npMean (l : List ℚ) : ℚ := l.sum / l.length

/-- Embeds `np.var` as used inside `np.std(data)`: population variance,
mean of squared deviations from the mean. -/
def npVar (l : List ℚ) : ℚ :=
  (l.map (fun x => (x - npMean l) ^ 2)).sum / l.length

/-- Embeds `np.std(data)`: population standard deviation, the square root of the
population variance. -/
noncomputable def npStd (l : List ℚ) : ℝ := Real.sqrt ((npVar l : ℚ) : ℝ)

/-- Embeds `data[-1]` on a non-empty list (the last element); `0` on `[]`
(the callers guard the length first). -/
def pyLast : List ℚ → ℚ
  | [] => 0
  | [x] => x
  | _ :: x :: xs => pyLast (x :: xs)

/-- Python slice `l[:n]` for an `int` `n`: the first `n` elements when
`0 ≤ n`, and all but the last `-n` elements when `n < 0`. -/
def pyTake (n : Int) (l : List ℚ) : List ℚ :=
  if 0 ≤ n then l.take n.toNat else l.take ((l.length : Int) + n).toNat

/-- Request model `PredictionRequest` (machine_id, historical_data,
future_periods); `future_periods` is a Python `int`, so it may be negative. -/
structure PredictionRequest where
  machine_id : String
  historical_data : List ℚ
  future_periods : Int

/-- Response model `PredictionResponse` (timestamp omitted). -/
structure PredictionResponse where
  machine_id : String
  predictions : List ℚ
  confidence : ℚ

/-- Request model `AnomalyRequest`. -/
structure AnomalyRequest where
  machine_id : String
  data : List ℚ
  threshold : ℚ

/-- Response model `AnomalyResponse` (timestamp omitted); `anomalies` is the
list of flagged indices, `anomaly_scores` the full z-score sequence. -/
structure AnomalyResponse where
  machine_id : String
  anomalies : List ℕ
  anomaly_scores : List ℝ

/-- The body of the fallback loop in `predict_consumption`:
`predicted = alpha * last_value + (1 - alpha) * np.mean(data)` with
`alpha = 0.3`, run `n` times, appending each `predicted` and updating
`last_value` to it. -/
def fallbackAux (mu : ℚ) (last : ℚ) : ℕ → List ℚ
  | 0 => []
  | n + 1 =>
    (3 / 10 * last + (1 - 3 / 10) * mu) ::
      fallbackAux mu (3 / 10 * last + (1 - 3 / 10) * mu) n

/-- Handler of `POST /predict`, `predict_consumption`. The first argument is the
process-wide `model` singleton: `none` when `model.pkl` was absent or
unreadable, `some m` when a model is loaded, where `m series = none` models a
`predict` call that raises and `m series = some out` a call returning `out`.
Mirrors src/app.py lines 73–108:
length guard, then fallback smoothing (confidence 0.6) / model path
(confidence 0.9) / degraded mean fallback after a model failure
(confidence 0.5). -/
def predict_consumption (model : Option (List ℚ → Option (List ℚ)))
    (req : PredictionRequest) : Except ℕ PredictionResponse :=
  if req.historical_data.length < 2 then
    .error 400
  else
    match model with
    | none =>
        .ok { machine_id := req.machine_id
              predictions := fallbackAux (npMean req.historical_data)
                (pyLast req.historical_data) req.future_periods.toNat
              confidence := 6 / 10 }
    | some m =>
        match m req.historical_data with
        | some out =>
            .ok { machine_id := req.machine_id
                  predictions := pyTake req.future_periods out
                  confidence := 9 / 10 }
        | none =>
            .ok { machine_id := req.machine_id
                  predictions := List.replicate req.future_periods.toNat
                    (npMean req.historical_data)
                  confidence := 5 / 10 }

/-- The z-score computation of `detect_anomalies`: if `std == 0` the scores
are `np.zeros_like(data)`, otherwise `np.abs((data - mean) / std)`. -/
noncomputable def zScores (l : List ℚ) : List ℝ :=
  if npStd l = 0 then
    l.map (fun _ => 0)
  else
    l.map (fun x : ℚ => |((x : ℚ) : ℝ) - ((npMean l : ℚ) : ℝ)| / npStd l)

/-- Embeds `np.where(z_scores > request.threshold)[0].tolist()`: the indices of the
series whose z-score strictly exceeds the threshold, in ascending order. -/
noncomputable def anomalyIndices (l : List ℚ) (threshold : ℚ) : List ℕ :=
  (List.range l.length).filter
    (fun i => decide (((threshold : ℚ) : ℝ) < (zScores l).getD i 0))

/-- Handler of `POST /anomalies`, `detect_anomalies` (src/app.py lines 121–145):
length guard, then z-score anomaly detection. -/
noncomputable def detect_anomalies (req : AnomalyRequest) :
    Except ℕ AnomalyResponse :=
  if req.data.length < 3 then
    .error 400
  else
    .ok { machine_id := req.machine_id
          anomalies := anomalyIndices req.data req.threshold
          anomaly_scores := zScores req.data }

/-- Embeds `np.min(arr)` on a non-empty list; `0` on `[]`. -/
def npMin : List ℚ → ℚ
  | [] => 0
  | x :: xs => xs.foldl min x

/-- Embeds `np.max(arr)` on a non-empty list; `0` on `[]`. -/
def npMax : List ℚ → ℚ
  | [] => 0
  | x :: xs => xs.foldl max x

/-- Embeds `np.median(arr)`: middle element of the sorted data for odd length,
average of the two middle elements for even length. -/
def npMedian (l : List ℚ) : ℚ :=
  let s := l.insertionSort (· ≤ ·)
  let n := s.length
  if n % 2 = 1 then s.getD (n / 2) 0
  else (s.getD (n / 2 - 1) 0 + s.getD (n / 2) 0) / 2

/-- Embeds `np.percentile(arr, q)` with the default linear-interpolation
semantics: on the sorted data `s` of length `n`, the virtual index is
`idx = q * (n - 1) / 100`; the result interpolates linearly between
`s[⌊idx⌋]` and `s[⌊idx⌋ + 1]`. -/
def npPercentile (l : List ℚ) (q : ℚ) : ℚ :=
  let s := l.insertionSort (· ≤ ·)
  let n := s.length
  let idx : ℚ := q * ((n : ℚ) - 1) / 100
  let i : ℕ := (⌊idx⌋).toNat
  let lo := s.getD i 0
  let hi := s.getD (i + 1) lo
  lo + (idx - ⌊idx⌋) * (hi - lo)

/-- The record `StatisticsResult` returned by `POST /statistics`
(timestamp omitted). -/
structure StatisticsResult where
  count : ℕ
  mean : ℚ
  median : ℚ
  std : ℝ
  min : ℚ
  max : ℚ
  quartile_25 : ℚ
  quartile_75 : ℚ

/-- Handler of `POST /statistics`, `calculate_statistics`
(src/app.py lines 153–171). -/
noncomputable def calculate_statistics (data : List ℚ) : StatisticsResult :=
  { count := data.length
    mean := npMean data
    median := npMedian data
    std := npStd data
    min := npMin data
    max := npMax data
    quartile_25 := npPercentile data 25
    quartile_75 := npPercentile data 75 }

/-- The recurrence of the spec for the no-model forecast path, stated the way
the spec writes it: `predicted_t = α · previous_value + (1 − α) · mean(series)`
with `α = 0.3`, `previous_value` starting at `series[-1]`; `specRecurrence
data t` is `previous_value` before step `t + 1`, so `specRecurrence data (t+1)`
is `predicted_(t+1)`. -/
def specRecurrence (data : List ℚ) : ℕ → ℚ
  | 0 => pyLast data
  | t + 1 => 3 / 10 * specRecurrence data t + 7 / 10 * npMean data

/-- Helper: the smoothing recurrence with an explicit seed `x`,
used to reason about `fallbackAux` by induction. -/
def smoothIter (mu x : ℚ) : ℕ → ℚ
  | 0 => x
  | t + 1 => 3 / 10 * smoothIter mu x t + 7 / 10 * mu

lemma smoothIter_shift (mu x : ℚ) :
    ∀ t, smoothIter mu (3 / 10 * x + 7 / 10 * mu) t = smoothIter mu x (t + 1) := by
  intro t
  induction t with
  | zero => simp [smoothIter]
  | succ t ih => simp [smoothIter, ih]

lemma specRecurrence_eq_smoothIter (data : List ℚ) :
    ∀ t, specRecurrence data t = smoothIter (npMean data) (pyLast data) t := by
  intro t
  induction t with
  | zero => simp [specRecurrence, smoothIter]
  | succ t ih => simp [specRecurrence, smoothIter, ih]

lemma fallbackAux_length (mu : ℚ) : ∀ (n : ℕ) (x : ℚ), (fallbackAux mu x n).length = n := by
  intro n
  induction n with
  | zero => intro x; rfl
  | succ n ih => intro x; simp [fallbackAux, ih]

lemma fallbackAux_getD (mu : ℚ) :
    ∀ (n : ℕ) (x : ℚ) (t : ℕ), t < n →
      (fallbackAux mu x n).getD t 0 = smoothIter mu x (t + 1) := by
  intro n
  induction n with
  | zero => intro x t ht; omega
  | succ n ih =>
    intro x t ht
    match t with
    | 0 =>
      simp only [fallbackAux, List.getD_cons_zero, smoothIter]
      ring
    | t + 1 =>
      have step : (3 / 10 : ℚ) * x + (1 - 3 / 10) * mu = 3 / 10 * x + 7 / 10 * mu := by
        ring
      simp only [fallbackAux, List.getD_cons_succ]
      rw [ih _ t (by omega), step, smoothIter_shift]

end AEOS

namespace AEOS

/-- C1: with no model loaded, for a series of length ≥ 2 and horizon ≥ 0,
`predict_consumption` succeeds with exactly `horizon` predictions following
the recurrence `predicted_t = 0.3 · previous + 0.7 · mean(series)` seeded at
the last element of the series, and confidence 0.6. -/
theorem predict_fallback_recurrence (req : PredictionRequest)
    (h2 : 2 ≤ req.historical_data.length) (h0 : 0 ≤ req.future_periods) :
    ∃ r, predict_consumption none req = .ok r ∧
      (r.predictions.length : ℤ) = req.future_periods ∧
      r.confidence = 6 / 10 ∧
      ∀ t, t < r.predictions.length →
        r.predictions.getD t 0 = specRecurrence req.historical_data (t + 1) := by
  have hok : predict_consumption none req = .ok
      ⟨req.machine_id,
        fallbackAux (npMean req.historical_data) (pyLast req.historical_data)
          req.future_periods.toNat, 6 / 10⟩ := by
    unfold predict_consumption
    rw [if_neg (by omega)]
  refine ⟨_, hok, ?_, rfl, ?_⟩
  · simp [fallbackAux_length, Int.toNat_of_nonneg h0]
  · intro t ht
    rw [fallbackAux_length] at ht
    rw [fallbackAux_getD _ _ _ _ ht, specRecurrence_eq_smoothIter]

/-- Witness for C1 at series `[2, 4]`, horizon `2`. -/
theorem predict_fallback_recurrence_witness :
    2 ≤ (PredictionRequest.mk "w1" [2, 4] 2).historical_data.length ∧
    0 ≤ (PredictionRequest.mk "w1" [2, 4] 2).future_periods ∧
    ∃ r, predict_consumption none (PredictionRequest.mk "w1" [2, 4] 2) = .ok r ∧
      (r.predictions.length : ℤ) = (PredictionRequest.mk "w1" [2, 4] 2).future_periods ∧
      r.confidence = 6 / 10 ∧
      ∀ t, t < r.predictions.length →
        r.predictions.getD t 0 =
          specRecurrence (PredictionRequest.mk "w1" [2, 4] 2).historical_data (t + 1) :=
  ⟨by decide, by decide,
    predict_fallback_recurrence (PredictionRequest.mk "w1" [2, 4] 2) (by decide) (by decide)⟩

/-- C10: a negative `future_periods` is not rejected: with no model loaded and
a series of length ≥ 2, `predict_consumption` returns an empty prediction list
with confidence 0.6 (the smoothing loop runs zero times). -/
theorem predict_negative_horizon (req : PredictionRequest)
    (h2 : 2 ≤ req.historical_data.length) (hneg : req.future_periods < 0) :
    predict_consumption none req = .ok ⟨req.machine_id, [], 6 / 10⟩ := by
  unfold predict_consumption
  rw [if_neg (by omega)]
  have h0 : req.future_periods.toNat = 0 := Int.toNat_of_nonpos (le_of_lt hneg)
  simp [h0, fallbackAux]

/-- Witness for C10 at series `[1, 2]`, horizon `-3`. -/
theorem predict_negative_horizon_witness :
    2 ≤ (PredictionRequest.mk "w10" [1, 2] (-3)).historical_data.length ∧
    (PredictionRequest.mk "w10" [1, 2] (-3)).future_periods < 0 ∧
    predict_consumption none (PredictionRequest.mk "w10" [1, 2] (-3)) =
      .ok ⟨"w10", [], 6 / 10⟩ :=
  ⟨by decide, by decide,
    predict_negative_horizon (PredictionRequest.mk "w10" [1, 2] (-3)) (by decide) (by decide)⟩

/-- C2: with a model loaded whose `predict` raises, `predict_consumption`
returns no error: it succeeds with `horizon` copies of the mean of the series
and confidence 0.5. -/
theorem predict_model_failure (m : List ℚ → Option (List ℚ))
    (req : PredictionRequest) (h2 : 2 ≤ req.historical_data.length)
    (h0 : 0 ≤ req.future_periods) (hm : m req.historical_data = none) :
    ∃ r, predict_consumption (some m) req = .ok r ∧
      r.predictions = List.replicate req.future_periods.toNat
        (npMean req.historical_data) ∧
      (r.predictions.length : ℤ) = req.future_periods ∧
      r.confidence = 5 / 10 := by
  have hok : predict_consumption (some m) req = .ok
      ⟨req.machine_id,
        List.replicate req.future_periods.toNat (npMean req.historical_data),
        5 / 10⟩ := by
    unfold predict_consumption
    rw [if_neg (by omega)]
    simp only [hm]
  exact ⟨_, hok, rfl, by simp [Int.toNat_of_nonneg h0], rfl⟩

/-- Witness for C2 at series `[1, 2]`, horizon `3`, with an always-raising
model. -/
theorem predict_model_failure_witness :
    2 ≤ (PredictionRequest.mk "w2" [1, 2] 3).historical_data.length ∧
    0 ≤ (PredictionRequest.mk "w2" [1, 2] 3).future_periods ∧
    (fun (_ : List ℚ) => (none : Option (List ℚ)))
      (PredictionRequest.mk "w2" [1, 2] 3).historical_data = none ∧
    ∃ r, predict_consumption (some (fun _ => none))
        (PredictionRequest.mk "w2" [1, 2] 3) = .ok r ∧
      r.predictions = List.replicate
        (PredictionRequest.mk "w2" [1, 2] 3).future_periods.toNat
        (npMean (PredictionRequest.mk "w2" [1, 2] 3).historical_data) ∧
      (r.predictions.length : ℤ) =
        (PredictionRequest.mk "w2" [1, 2] 3).future_periods ∧
      r.confidence = 5 / 10 :=
  ⟨by decide, by decide, rfl,
    predict_model_failure (fun _ => none) (PredictionRequest.mk "w2" [1, 2] 3)
      (by decide) (by decide) rfl⟩

/-- C7: with a model loaded whose `predict` succeeds returning `out`,
`predict_consumption` succeeds with confidence 0.9, and the predictions are
the truncation of `out` to at most the first `horizon` elements, never
padded. -/
theorem predict_model_success (m : List ℚ → Option (List ℚ))
    (req : PredictionRequest) (out : List ℚ)
    (h2 : 2 ≤ req.historical_data.length) (h0 : 0 ≤ req.future_periods)
    (hm : m req.historical_data = some out) :
    ∃ r, predict_consumption (some m) req = .ok r ∧
      r.confidence = 9 / 10 ∧
      r.predictions = out.take req.future_periods.toNat ∧
      r.predictions.length = min req.future_periods.toNat out.length ∧
      ∃ rest, out = r.predictions ++ rest := by
  have hok : predict_consumption (some m) req = .ok
      ⟨req.machine_id, pyTake req.future_periods out, 9 / 10⟩ := by
    unfold predict_consumption
    rw [if_neg (by omega)]
    simp only [hm]
  have htake : pyTake req.future_periods out = out.take req.future_periods.toNat := by
    unfold pyTake
    rw [if_pos h0]
  refine ⟨_, hok, rfl, htake, ?_, ?_⟩
  · rw [htake]
    exact List.length_take _ _
  · exact ⟨out.drop req.future_periods.toNat, by rw [htake, List.take_append_drop]⟩

/-- Witness for C7 at series `[1, 2]`, horizon `2`, with a model returning
`[7, 8, 9]` (truncated to `[7, 8]`). -/
theorem predict_model_success_witness :
    2 ≤ (PredictionRequest.mk "w7" [1, 2] 2).historical_data.length ∧
    0 ≤ (PredictionRequest.mk "w7" [1, 2] 2).future_periods ∧
    (fun (_ : List ℚ) => some ([7, 8, 9] : List ℚ))
      (PredictionRequest.mk "w7" [1, 2] 2).historical_data = some [7, 8, 9] ∧
    ∃ r, predict_consumption (some (fun _ => some [7, 8, 9]))
        (PredictionRequest.mk "w7" [1, 2] 2) = .ok r ∧
      r.confidence = 9 / 10 ∧
      r.predictions = ([7, 8, 9] : List ℚ).take
        (PredictionRequest.mk "w7" [1, 2] 2).future_periods.toNat ∧
      r.predictions.length = min
        (PredictionRequest.mk "w7" [1, 2] 2).future_periods.toNat
        ([7, 8, 9] : List ℚ).length ∧
      ∃ rest, ([7, 8, 9] : List ℚ) = r.predictions ++ rest :=
  ⟨by decide, by decide, rfl,
    predict_model_success (fun _ => some [7, 8, 9])
      (PredictionRequest.mk "w7" [1, 2] 2) [7, 8, 9] (by decide) (by decide) rfl⟩

lemma foldl_min_le_init (xs : List ℚ) : ∀ a : ℚ, xs.foldl min a ≤ a := by
  induction xs with
  | nil => intro a; exact le_refl a
  | cons x xs ih =>
    intro a
    calc (x :: xs).foldl min a = xs.foldl min (min a x) := rfl
    _ ≤ min a x := ih _
    _ ≤ a := min_le_left _ _

lemma foldl_min_le_mem (xs : List ℚ) : ∀ (a : ℚ), ∀ y ∈ xs, xs.foldl min a ≤ y := by
  induction xs with
  | nil => intro a y hy; cases hy
  | cons x xs ih =>
    intro a y hy
    rcases List.mem_cons.1 hy with rfl | hy
    · calc (y :: xs).foldl min a = xs.foldl min (min a y) := rfl
      _ ≤ min a y := foldl_min_le_init _ _
      _ ≤ y := min_le_right _ _
    · exact ih _ y hy

lemma init_le_foldl_max (xs : List ℚ) : ∀ a : ℚ, a ≤ xs.foldl max a := by
  induction xs with
  | nil => intro a; exact le_refl a
  | cons x xs ih =>
    intro a
    calc a ≤ max a x := le_max_left _ _
    _ ≤ xs.foldl max (max a x) := ih _
    _ = (x :: xs).foldl max a := rfl

lemma mem_le_foldl_max (xs : List ℚ) : ∀ (a : ℚ), ∀ y ∈ xs, y ≤ xs.foldl max a := by
  induction xs with
  | nil => intro a y hy; cases hy
  | cons x xs ih =>
    intro a y hy
    rcases List.mem_cons.1 hy with rfl | hy
    · calc y ≤ max a y := le_max_right _ _
      _ ≤ xs.foldl max (max a y) := init_le_foldl_max _ _
      _ = (y :: xs).foldl max a := rfl
    · exact ih _ y hy

lemma npMin_le_mem (l : List ℚ) : ∀ y ∈ l, npMin l ≤ y := by
  match l with
  | [] => intro y hy; cases hy
  | x :: xs =>
    intro y hy
    rcases List.mem_cons.1 hy with rfl | hy
    · exact foldl_min_le_init xs y
    · exact foldl_min_le_mem xs x y hy

lemma mem_le_npMax (l : List ℚ) : ∀ y ∈ l, y ≤ npMax l := by
  match l with
  | [] => intro y hy; cases hy
  | x :: xs =>
    intro y hy
    rcases List.mem_cons.1 hy with rfl | hy
    · exact init_le_foldl_max xs y
    · exact mem_le_foldl_max xs x y hy

lemma mul_card_le_sum (l : List ℚ) (a : ℚ) (ha : ∀ y ∈ l, a ≤ y) :
    a * l.length ≤ l.sum := by
  induction l with
  | nil => simp
  | cons x xs ih =>
    have hx : a ≤ x := ha x (List.mem_cons_self _ _)
    have hxs : a * xs.length ≤ xs.sum := ih fun y hy => ha y (List.mem_cons_of_mem _ hy)
    simp only [List.length_cons, List.sum_cons]
    push_cast
    nlinarith [hxs, hx]

lemma sum_le_mul_card (l : List ℚ) (b : ℚ) (hb : ∀ y ∈ l, y ≤ b) :
    l.sum ≤ b * l.length := by
  induction l with
  | nil => simp
  | cons x xs ih =>
    have hx : x ≤ b := hb x (List.mem_cons_self _ _)
    have hxs : xs.sum ≤ b * xs.length := ih fun y hy => hb y (List.mem_cons_of_mem _ hy)
    simp only [List.length_cons, List.sum_cons]
    push_cast
    nlinarith [hxs, hx]

lemma npMin_le_npMean (l : List ℚ) (hl : l ≠ []) : npMin l ≤ npMean l := by
  have hlen : 0 < (l.length : ℚ) := by
    have : 0 < l.length := List.length_pos.2 hl
    exact_mod_cast this
  have h := mul_card_le_sum l (npMin l) (npMin_le_mem l)
  rw [npMean, le_div_iff₀ hlen]
  exact h

lemma npMean_le_npMax (l : List ℚ) (hl : l ≠ []) : npMean l ≤ npMax l := by
  have hlen : 0 < (l.length : ℚ) := by
    have : 0 < l.length := List.length_pos.2 hl
    exact_mod_cast this
  have h := sum_le_mul_card l (npMax l) (mem_le_npMax l)
  rw [npMean, div_le_iff₀ hlen]
  exact h

lemma pyLast_mem : ∀ (l : List ℚ), l ≠ [] → pyLast l ∈ l := by
  intro l
  induction l with
  | nil => intro h; exact absurd rfl h
  | cons x xs ih =>
    intro _
    match xs with
    | [] => simp [pyLast]
    | y :: ys =>
      have := ih (by simp)
      simp only [pyLast]
      exact List.mem_cons_of_mem x this

lemma fallbackAux_bounds (mu a b : ℚ) (ha : a ≤ mu) (hb : mu ≤ b) :
    ∀ (n : ℕ) (x : ℚ), a ≤ x → x ≤ b →
      ∀ p ∈ fallbackAux mu x n, a ≤ p ∧ p ≤ b := by
  intro n
  induction n with
  | zero => intro x _ _ p hp; cases hp
  | succ n ih =>
    intro x hxa hxb p hp
    have hstep_lo : a ≤ 3 / 10 * x + (1 - 3 / 10) * mu := by nlinarith
    have hstep_hi : 3 / 10 * x + (1 - 3 / 10) * mu ≤ b := by nlinarith
    rcases List.mem_cons.1 hp with rfl | hp
    · exact ⟨hstep_lo, hstep_hi⟩
    · exact ih _ hstep_lo hstep_hi p hp

end AEOS

namespace AEOS

/-- C5 counterexample: for the series `[0, 10]` with horizon 1 and no model,
the single prediction is `6.5`, which exceeds the mean `5`, so a predicted
value need not lie between `min(series)` and `mean(series)`. -/
theorem predict_bounds_counterexample :
    predict_consumption none ⟨"m5", [0, 10], 1⟩ =
      .ok ⟨"m5", [13 / 2], 6 / 10⟩ ∧
    npMean [0, 10] = 5 ∧ npMin [0, 10] = 0 ∧ ¬ ((13 : ℚ) / 2 ≤ 5) := by
  refine ⟨?_, by norm_num [npMean], by norm_num [npMin], by norm_num⟩
  unfold predict_consumption
  rw [if_neg (by norm_num)]
  have hfb : fallbackAux (npMean [0, 10]) (pyLast [0, 10])
      ((1 : ℤ)).toNat = [13 / 2] := by
    norm_num [fallbackAux, npMean, pyLast, Int.toNat]
  rw [hfb]

/-- C5 amended: with no model loaded, for a series of length ≥ 2 and horizon
≥ 0, `predict_consumption` succeeds with exactly `horizon` predictions and
confidence 0.6, and each predicted value lies between `min(series)` and
`max(series)` (the stated upper bound `mean(series)` fails whenever the last
observation exceeds the mean). -/
theorem predict_fallback_bounds (req : PredictionRequest)
    (h2 : 2 ≤ req.historical_data.length) (h0 : 0 ≤ req.future_periods) :
    ∃ r, predict_consumption none req = .ok r ∧
      (r.predictions.length : ℤ) = req.future_periods ∧
      r.confidence = 6 / 10 ∧
      ∀ p ∈ r.predictions,
        npMin req.historical_data ≤ p ∧ p ≤ npMax req.historical_data := by
  have hne : req.historical_data ≠ [] := by
    intro h
    rw [h] at h2
    simp at h2
  have hok : predict_consumption none req = .ok
      ⟨req.machine_id,
        fallbackAux (npMean req.historical_data) (pyLast req.historical_data)
          req.future_periods.toNat, 6 / 10⟩ := by
    unfold predict_consumption
    rw [if_neg (by omega)]
  refine ⟨_, hok, ?_, rfl, ?_⟩
  · simp [fallbackAux_length, Int.toNat_of_nonneg h0]
  · exact fallbackAux_bounds _ _ _
      (npMin_le_npMean _ hne) (npMean_le_npMax _ hne) _ _
      (npMin_le_mem _ _ (pyLast_mem _ hne)) (mem_le_npMax _ _ (pyLast_mem _ hne))

/-- Witness for the amended C5 at series `[0, 10]`, horizon `2`. -/
theorem predict_fallback_bounds_witness :
    2 ≤ (PredictionRequest.mk "w5" [0, 10] 2).historical_data.length ∧
    0 ≤ (PredictionRequest.mk "w5" [0, 10] 2).future_periods ∧
    ∃ r, predict_consumption none (PredictionRequest.mk "w5" [0, 10] 2) = .ok r ∧
      (r.predictions.length : ℤ) = (PredictionRequest.mk "w5" [0, 10] 2).future_periods ∧
      r.confidence = 6 / 10 ∧
      ∀ p ∈ r.predictions,
        npMin (PredictionRequest.mk "w5" [0, 10] 2).historical_data ≤ p ∧
        p ≤ npMax (PredictionRequest.mk "w5" [0, 10] 2).historical_data :=
  ⟨by decide, by decide,
    predict_fallback_bounds (PredictionRequest.mk "w5" [0, 10] 2) (by decide) (by decide)⟩

/-- C8: `predict_consumption` fails (with HTTP 400) exactly when the series
has fewer than 2 points — for any model, including one that raises — and
`detect_anomalies` fails (with HTTP 400) exactly when the series has fewer
than 3 points; no other input makes either operation fail. -/
theorem length_guards (model : Option (List ℚ → Option (List ℚ)))
    (req : PredictionRequest) (areq : AnomalyRequest) :
    ((∃ r, predict_consumption model req = .ok r) ↔
      2 ≤ req.historical_data.length) ∧
    (req.historical_data.length < 2 →
      predict_consumption model req = .error 400) ∧
    ((∃ r, detect_anomalies areq = .ok r) ↔ 3 ≤ areq.data.length) ∧
    (areq.data.length < 3 → detect_anomalies areq = .error 400) := by
  refine ⟨⟨fun ⟨r, hr⟩ => ?_, fun h => ?_⟩, fun h => ?_, ⟨fun ⟨r, hr⟩ => ?_, fun h => ?_⟩, fun h => ?_⟩
  · by_contra hlen
    unfold predict_consumption at hr
    rw [if_pos (by omega)] at hr
    exact Except.noConfusion hr
  · unfold predict_consumption
    rw [if_neg (by omega)]
    match model with
    | none => exact ⟨_, rfl⟩
    | some m =>
      match hm : m req.historical_data with
      | some out =>
        refine ⟨⟨req.machine_id, pyTake req.future_periods out, 9 / 10⟩, ?_⟩
        simp only [hm]
      | none =>
        refine ⟨⟨req.machine_id,
          List.replicate req.future_periods.toNat (npMean req.historical_data),
          5 / 10⟩, ?_⟩
        simp only [hm]
  · unfold predict_consumption
    rw [if_pos (by omega)]
  · by_contra hlen
    unfold detect_anomalies at hr
    rw [if_pos (by omega)] at hr
    exact Except.noConfusion hr
  · unfold detect_anomalies
    rw [if_neg (by omega)]
    exact ⟨_, rfl⟩
  · unfold detect_anomalies
    rw [if_pos (by omega)]

/-- Witness for C8 at a one-point forecast request and a two-point anomaly
request (both rejected with 400). -/
theorem length_guards_witness :
    ((∃ r, predict_consumption none (PredictionRequest.mk "w8" [1] 5) = .ok r) ↔
      2 ≤ (PredictionRequest.mk "w8" [1] 5).historical_data.length) ∧
    ((PredictionRequest.mk "w8" [1] 5).historical_data.length < 2 →
      predict_consumption none (PredictionRequest.mk "w8" [1] 5) = .error 400) ∧
    ((∃ r, detect_anomalies (AnomalyRequest.mk "w8" [1, 2] 2) = .ok r) ↔
      3 ≤ (AnomalyRequest.mk "w8" [1, 2] 2).data.length) ∧
    ((AnomalyRequest.mk "w8" [1, 2] 2).data.length < 3 →
      detect_anomalies (AnomalyRequest.mk "w8" [1, 2] 2) = .error 400) :=
  length_guards none (PredictionRequest.mk "w8" [1] 5) (AnomalyRequest.mk "w8" [1, 2] 2)

lemma zScores_length (l : List ℚ) : (zScores l).length = l.length := by
  unfold zScores
  split
  · exact List.length_map _ _
  · exact List.length_map _ _

/-- C3: for a series of length ≥ 3 and any threshold, `detect_anomalies`
succeeds with one score per input point, and its flagged indices are a
strictly increasing list of positions into the series equal to exactly the
set of indices whose score strictly exceeds the threshold. -/
theorem anomaly_scores_indices (req : AnomalyRequest)
    (h3 : 3 ≤ req.data.length) :
    ∃ r, detect_anomalies req = .ok r ∧
      r.anomaly_scores.length = req.data.length ∧
      List.Pairwise (· < ·) r.anomalies ∧
      ∀ i, i ∈ r.anomalies ↔
        i < req.data.length ∧
        ((req.threshold : ℚ) : ℝ) < r.anomaly_scores.getD i 0 := by
  have hok : detect_anomalies req = .ok
      ⟨req.machine_id, anomalyIndices req.data req.threshold,
        zScores req.data⟩ := by
    unfold detect_anomalies
    rw [if_neg (by omega)]
  refine ⟨_, hok, zScores_length _, ?_, ?_⟩
  · exact (List.pairwise_lt_range _).sublist (List.filter_sublist _)
  · intro i
    simp [anomalyIndices, List.mem_filter, List.mem_range, decide_eq_true_eq]

/-- Witness for C3 at series `[1, 2, 3]`, threshold `1`. -/
theorem anomaly_scores_indices_witness :
    3 ≤ (AnomalyRequest.mk "w3" [1, 2, 3] 1).data.length ∧
    ∃ r, detect_anomalies (AnomalyRequest.mk "w3" [1, 2, 3] 1) = .ok r ∧
      r.anomaly_scores.length = (AnomalyRequest.mk "w3" [1, 2, 3] 1).data.length ∧
      List.Pairwise (· < ·) r.anomalies ∧
      ∀ i, i ∈ r.anomalies ↔
        i < (AnomalyRequest.mk "w3" [1, 2, 3] 1).data.length ∧
        (((AnomalyRequest.mk "w3" [1, 2, 3] 1).threshold : ℚ) : ℝ) <
          r.anomaly_scores.getD i 0 :=
  ⟨by decide, anomaly_scores_indices (AnomalyRequest.mk "w3" [1, 2, 3] 1) (by decide)⟩

lemma npMean_replicate (n : ℕ) (hn : n ≠ 0) (c : ℚ) :
    npMean (List.replicate n c) = c := by
  unfold npMean
  rw [List.sum_replicate, List.length_replicate, nsmul_eq_mul,
    mul_div_cancel_left₀]
  exact_mod_cast hn

lemma npVar_replicate (n : ℕ) (hn : n ≠ 0) (c : ℚ) :
    npVar (List.replicate n c) = 0 := by
  unfold npVar
  rw [List.map_replicate, npMean_replicate n hn c]
  simp

lemma npStd_replicate (n : ℕ) (hn : n ≠ 0) (c : ℚ) :
    npStd (List.replicate n c) = 0 := by
  unfold npStd
  rw [npVar_replicate n hn c]
  simp

lemma zScores_replicate (n : ℕ) (hn : n ≠ 0) (c : ℚ) :
    zScores (List.replicate n c) = List.replicate n 0 := by
  unfold zScores
  rw [if_pos (npStd_replicate n hn c), List.map_replicate]

lemma getD_replicate_zero (n i : ℕ) : (List.replicate n (0:ℝ)).getD i 0 = 0 := by
  rw [List.getD_eq_getElem?_getD, List.getElem?_replicate]
  split <;> rfl

lemma anomalyIndices_replicate_neg (n : ℕ) (hn : n ≠ 0) (c t : ℚ) (ht : t < 0) :
    anomalyIndices (List.replicate n c) t = List.range n := by
  unfold anomalyIndices
  rw [List.length_replicate, zScores_replicate n hn c]
  refine List.filter_eq_self.2 fun i _ => decide_eq_true ?_
  rw [getD_replicate_zero]
  exact_mod_cast ht

/-- C6 counterexample: on the constant series `[1, 1, 1]` with the negative
threshold `-1`, every z-score is `0 > -1`, so all three indices are flagged —
the anomaly list is not empty for every threshold. -/
theorem anomaly_constant_counterexample :
    detect_anomalies ⟨"m6", [1, 1, 1], -1⟩ =
      .ok ⟨"m6", [0, 1, 2], [0, 0, 0]⟩ ∧ ([0, 1, 2] : List ℕ) ≠ [] := by
  constructor
  · unfold detect_anomalies
    rw [if_neg (by norm_num)]
    have e : ([1, 1, 1] : List ℚ) = List.replicate 3 1 := rfl
    rw [e, zScores_replicate 3 (by norm_num) 1,
      anomalyIndices_replicate_neg 3 (by norm_num) 1 (-1) (by norm_num)]
    rfl
  · simp

/-- C6 amended: for every constant series of length ≥ 3, `detect_anomalies`
returns all-zero anomaly scores (the zero standard deviation is never used as
a divisor) for every threshold, and an empty anomaly list for every
non-negative threshold (a negative threshold flags every point, since all
z-scores are 0). -/
theorem anomaly_constant (mid : String) (c : ℚ) (n : ℕ) (t : ℚ)
    (h3 : 3 ≤ n) :
    ∃ r, detect_anomalies ⟨mid, List.replicate n c, t⟩ = .ok r ∧
      r.anomaly_scores = List.replicate n 0 ∧
      (0 ≤ t → r.anomalies = []) := by
  have hn : n ≠ 0 := by omega
  have hok : detect_anomalies ⟨mid, List.replicate n c, t⟩ = .ok
      ⟨mid, anomalyIndices (List.replicate n c) t,
        zScores (List.replicate n c)⟩ := by
    unfold detect_anomalies
    rw [if_neg (by rw [List.length_replicate]; omega)]
  refine ⟨_, hok, zScores_replicate n hn c, fun ht => ?_⟩
  unfold anomalyIndices
  rw [List.length_replicate, zScores_replicate n hn c]
  refine List.filter_eq_nil_iff.2 fun i _ => ?_
  rw [decide_eq_true_eq, getD_replicate_zero, not_lt]
  exact_mod_cast ht

/-- Witness for the amended C6 at the constant series of three `7`s,
threshold `2`. -/
theorem anomaly_constant_witness :
    3 ≤ 3 ∧
    ∃ r, detect_anomalies ⟨"w6", List.replicate 3 (7:ℚ), 2⟩ = .ok r ∧
      r.anomaly_scores = List.replicate 3 0 ∧
      ((0:ℚ) ≤ 2 → r.anomalies = []) :=
  ⟨by decide, anomaly_constant "w6" 7 3 2 (by decide)⟩

lemma npVar_boundary : npVar [1, 1, 1, 1, 100] = 39204 / 25 := by
  norm_num [npVar, npMean]

lemma npStd_boundary : npStd [1, 1, 1, 1, 100] = 198 / 5 := by
  unfold npStd
  rw [npVar_boundary,
    show (((39204 / 25 : ℚ) : ℝ)) = (198 / 5) ^ 2 by push_cast; norm_num]
  exact Real.sqrt_sq (by norm_num)

lemma zScores_boundary :
    zScores [1, 1, 1, 1, 100] = [1 / 2, 1 / 2, 1 / 2, 1 / 2, 2] := by
  unfold zScores
  rw [if_neg (by rw [npStd_boundary]; norm_num)]
  rw [npStd_boundary, show npMean [1, 1, 1, 1, 100] = 104 / 5 by
    norm_num [npMean]]
  have h1 : |((1 : ℚ) : ℝ) - ((104 / 5 : ℚ) : ℝ)| / ((198 : ℝ) / 5) = 1 / 2 := by
    push_cast
    rw [abs_of_nonpos (by norm_num)]
    norm_num
  have h100 : |((100 : ℚ) : ℝ) - ((104 / 5 : ℚ) : ℝ)| / ((198 : ℝ) / 5) = 2 := by
    push_cast
    rw [abs_of_nonneg (by norm_num)]
    norm_num
  simp only [List.map_cons, List.map_nil, h1, h100]

lemma anomalyIndices_boundary : anomalyIndices [1, 1, 1, 1, 100] 2 = [] := by
  unfold anomalyIndices
  rw [zScores_boundary]
  refine List.filter_eq_nil_iff.2 fun i hi => ?_
  rw [decide_eq_true_eq, not_lt]
  have h5 : i < 5 := List.mem_range.1 hi
  interval_cases i <;> push_cast <;>
    norm_num [List.getD_cons_zero, List.getD_cons_succ]

/-- C4 counterexample: on `[1, 1, 1, 1, 100]` with threshold `2.0` the
z-score of index 4 is exactly `2.0`, the comparator is the strict `>`, and
no index is flagged — in particular index 4 is not. -/
theorem anomaly_boundary_counterexample :
    detect_anomalies ⟨"m4", [1, 1, 1, 1, 100], 2⟩ =
      .ok ⟨"m4", [], [1 / 2, 1 / 2, 1 / 2, 1 / 2, 2]⟩ ∧
    (4 : ℕ) ∉ ([] : List ℕ) := by
  refine ⟨?_, by simp⟩
  unfold detect_anomalies
  rw [if_neg (by norm_num)]
  rw [zScores_boundary, anomalyIndices_boundary]

/-- C4 amended: `detect_anomalies` on `[1, 1, 1, 1, 100]` with threshold
`2.0` does not flag the point at index 4: its z-score is exactly
`(100 - 20.8) / 39.6 = 2.0` and the strict comparison `2 > 2` fails, so the
anomaly list is empty. -/
theorem anomaly_boundary :
    ∃ r, detect_anomalies ⟨"m4b", [1, 1, 1, 1, 100], 2⟩ = .ok r ∧
      r.anomaly_scores.getD 4 0 = 2 ∧ r.anomalies = [] ∧
      (4 : ℕ) ∉ r.anomalies := by
  have hok : detect_anomalies ⟨"m4b", [1, 1, 1, 1, 100], 2⟩ = .ok
      ⟨"m4b", anomalyIndices [1, 1, 1, 1, 100] 2,
        zScores [1, 1, 1, 1, 100]⟩ := by
    unfold detect_anomalies
    rw [if_neg (by norm_num)]
  refine ⟨_, hok, ?_, anomalyIndices_boundary, ?_⟩
  · rw [zScores_boundary]
    norm_num [List.getD_cons_zero, List.getD_cons_succ]
  · rw [anomalyIndices_boundary]
    simp

/-- C9: `calculate_statistics` on `[1, 2, 3, 4, 5]` returns count 5,
mean 3, median 3, population standard deviation `√2`, min 1, max 5,
25th percentile 2 and 75th percentile 4 (linear-interpolation semantics). -/
theorem statistics_12345 :
    calculate_statistics [1, 2, 3, 4, 5] =
      ⟨5, 3, 3, Real.sqrt 2, 1, 5, 2, 4⟩ := by
  have hmean : npMean [1, 2, 3, 4, 5] = 3 := by norm_num [npMean]
  have hmed : npMedian [1, 2, 3, 4, 5] = 3 := by
    norm_num [npMedian, List.insertionSort, List.orderedInsert]
  have hstd : npStd [1, 2, 3, 4, 5] = Real.sqrt 2 := by
    unfold npStd
    rw [show npVar [1, 2, 3, 4, 5] = 2 by norm_num [npVar, npMean]]
    norm_num
  have hmin : npMin [1, 2, 3, 4, 5] = 1 := by norm_num [npMin]
  have hmax : npMax [1, 2, 3, 4, 5] = 5 := by norm_num [npMax]
  have h25 : npPercentile [1, 2, 3, 4, 5] 25 = 2 := by
    norm_num [npPercentile, List.insertionSort, List.orderedInsert, Int.toNat]
  have h75 : npPercentile [1, 2, 3, 4, 5] 75 = 4 := by
    norm_num [npPercentile, List.insertionSort, List.orderedInsert, Int.toNat]
  unfold calculate_statistics
  rw [hmean, hmed, hstd, hmin, hmax, h25, h75]
  rfl

end AEOS
